import Mathlib

/-
Verification development for the Ahack voice-support backend.

Shallow embedding of:
  * src/main.py       — session-lifecycle endpoints, session analyzer, webhook;
  * src/database.py   — DatabaseManager store operations;
  * src/agents/miso-agent/agent.py and src/agents/utils.py — the Miso agent's
    per-turn audio buffering and paralinguistic enrichment.

Modelling conventions:
  * Python floats carrying 1-10 scores are modelled as rationals (ℚ); every
    score computation relevant here is exact in both representations.
  * Python datetimes are modelled as natural-number timestamps plus, where
    calendar month grouping matters, an explicit (year, month, day) date.
  * Fallible Python code is modelled with `Except PyErr`; a raised exception
    is `Except.error`.
  * The Prisma schema file is not part of the sources; the nullability of the
    analysis columns of a Session row follows the spec's data model
    ("analysis payload populated only at finalization"), hence `Option` fields
    that are `none` until the finalization write.
-/

namespace Ahack

/-- Python runtime errors that the embedded code can raise. -/
inductive PyErr where
  | typeError : PyErr
deriving DecidableEq, Repr

/-- Model of `int(datetime.now())` as written in `get_default_analysis` (src/main.py:161):
`int()` applied to a `datetime.datetime` object raises `TypeError`
(datetime defines no `__int__`), so this conversion never produces a value. -/
def pyIntOfDatetime : Except PyErr Int := .error .typeError

/-- Result of calling a plain (non-`async`) Python function: a value that is
not awaitable.  `DeepgramWrapper.get_audio_intelligence` (src/agents/utils.py:12)
is a plain `def`, so calling it yields such a value. -/
structure SyncCall (α : Type) where
  value : α
deriving DecidableEq, Repr

/-- Model of `await` applied to the result of a plain function call: Python raises
`TypeError: object ... can't be used in 'await' expression` because the value
(a dict or None here) is not a coroutine. -/
def pyAwait {α : Type} (_c : SyncCall α) : Except PyErr α := .error .typeError

/-- Worker for `pySplitWhitespace`: walk the characters, collecting the
current word in reverse in `acc` and emitting it at each whitespace run or at
the end. -/
def splitWsAux : List Char → List Char → List (List Char)
  | [], acc => if acc.isEmpty then [] else [acc.reverse]
  | c :: cs, acc =>
      if c.isWhitespace then
        if acc.isEmpty then splitWsAux cs [] else acc.reverse :: splitWsAux cs []
      else splitWsAux cs (c :: acc)

/-- Python `str.split()` with no argument: split on runs of whitespace,
dropping empty pieces. -/
def pySplitWhitespace (s : String) : List String :=
  (splitWsAux s.toList []).map (fun cs => String.mk cs)

/-- Model of `len(transcript.split())` from `get_default_analysis` (src/main.py:168). -/
def pyWordCount (s : String) : Nat := (pySplitWhitespace s).length

/-- Calendar date of a session start (`started_at`); `serial` is a
monotone day ordinal used only for newest-first ordering. -/
structure Date where
  year : Nat
  month : Nat
  day : Nat
  serial : Nat
deriving DecidableEq, Repr

/-- A Session row, with the columns accessed by src/main.py and
src/database.py.  Analysis columns are `Option`s that the creation write
leaves `none` (see the modelling conventions above). -/
structure Session where
  id : String
  user_id : String
  room_name : String
  status : String
  title : Option String
  started_at : Date
  ended_at : Option Nat
  duration : Option Int
  summary : Option String
  key_topics : Option (List String)
  primary_emotions : Option (List String)
  mood_score : Option ℚ
  breakthrough_moments : Option String
  word_count : Option Nat
  engagement_score : Option ℚ
  stress_indicators : Option (List String)
deriving DecidableEq, Repr

/-- Authenticated user as produced by `get_current_user` (src/auth.py). -/
structure User where
  id : String
  email : String
  name : Option String
deriving DecidableEq, Repr

/-- Room metadata blob built by the session-lifecycle endpoints
(src/main.py:398 and src/main.py:456). -/
structure RoomMetadata where
  user_id : String
  user_name : Option String
  session_id : String
  summary : Option String
  key_topics : Option (List String)
  primary_emotions : Option (List String)
deriving DecidableEq, Repr

/-- The JSON object returned by a successful LLM analysis call: the schema in
src/main.py:102 marks all of these required except `breakthrough_moments`. -/
structure LLMAnalysis where
  title : String
  summary : String
  key_topics : List String
  primary_emotions : List String
  mood_score : ℚ
  breakthrough_moments : Option String
  word_count : Nat
  engagement_score : ℚ
  stress_indicators : List String
deriving DecidableEq, Repr

/-- The analyzer's `analysis_data` dict: the parsed LLM object plus the
`status` key that the code writes into it (src/main.py:207); `status` is kept
optional so that the handler's `.get("status", "ERROR")` is represented. -/
structure AnalysisResult where
  data : LLMAnalysis
  status : Option String
deriving DecidableEq, Repr

/-- Model of `get_default_analysis` (src/main.py:158): the dict literal evaluates
`int(datetime.now())` for its `"title"` value first, which raises
`TypeError`; the remaining fields show the object the source intends. -/
def get_default_analysis (transcript : String) : Except PyErr AnalysisResult :=
  match pyIntOfDatetime with
  | .error e => .error e
  | .ok n =>
      .ok { data := { title := toString n
                    , summary := "Session completed successfully"
                    , key_topics := ["general discussion"]
                    , primary_emotions := ["neutral"]
                    , mood_score := 5
                    , breakthrough_moments := some ""
                    , word_count := pyWordCount transcript
                    , engagement_score := 5
                    , stress_indicators := [] }
          , status := some "ERROR" }

/-- The retry loop of `analyze_session_with_llm` (src/main.py:174), unrolled on
the number of remaining attempts.  `provider attempt` is `some` parsed object
when the LLM call of that attempt succeeds and parses, `none` when it raises,
returns empty, or fails to parse.  On the last attempt's failure the loop
returns `get_default_analysis()`. -/
def analyzeFrom (transcript : String) (provider : Nat → Option LLMAnalysis)
    (max_retries : Nat) : Nat → Except PyErr AnalysisResult
  | 0 => get_default_analysis transcript
  | remaining + 1 =>
      let attempt := max_retries - (remaining + 1)
      match provider attempt with
      | some parsed => .ok { data := parsed, status := some "COMPLETED" }
      | none =>
          if attempt = max_retries - 1 then get_default_analysis transcript
          else analyzeFrom transcript provider max_retries remaining

/-- Model of `analyze_session_with_llm` (src/main.py:70) with its default
`max_retries = 3`. -/
def analyze_session_with_llm (transcript : String) (_duration_seconds : Int)
    (provider : Nat → Option LLMAnalysis) (max_retries : Nat) :
    Except PyErr AnalysisResult :=
  analyzeFrom transcript provider max_retries max_retries

/-- Model of `analysis_data.get("status", "ERROR")` in the webhook handler
(src/main.py:608). -/
def statusFromAnalysis (st : Option String) : String := st.getD "ERROR"

/-- Model of `status or "ERROR"` in `complete_session_with_analysis`
(src/database.py:154): the empty string is the only falsy `str`. -/
def coerceStatus (s : String) : String := if s = "" then "ERROR" else s

/-- Model of `DatabaseManager.create_session` (src/database.py:38): the creation write
sets exactly `user_id`, `title`, `room_name` and `status := "ACTIVE"`; every
analysis column is left unset. -/
def create_session (new_id : String) (user_id : String) (room_name : String)
    (title : String) (now : Date) : Session :=
  { id := new_id
  , user_id := user_id
  , room_name := room_name
  , status := "ACTIVE"
  , title := some title
  , started_at := now
  , ended_at := none
  , duration := none
  , summary := none
  , key_topics := none
  , primary_emotions := none
  , mood_score := none
  , breakthrough_moments := none
  , word_count := none
  , engagement_score := none
  , stress_indicators := none }

/-- Model of `DatabaseManager.get_session_by_id` (src/database.py:77), over an explicit
row list standing for the session table. -/
def get_session_by_id (db : List Session) (session_id : String) : Option Session :=
  db.find? (fun s => s.id = session_id)

/-- Model of `DatabaseManager.get_session_by_room_name` (src/database.py:96). -/
def get_session_by_room_name (db : List Session) (room_name : String) : Option Session :=
  db.find? (fun s => s.room_name = room_name)

/-- The update written by `DatabaseManager.complete_session_with_analysis`
(src/database.py:131), applied to the targeted row.  Parameters follow the
source's keyword arguments; `key_topics or []`, `primary_emotions or []` and
`stress_indicators or []` are the identity on lists (`[] or []` is `[]`). -/
def complete_session_with_analysis (s : Session) (status : String)
    (title : String) (duration : Int) (summary : String)
    (key_topics : List String) (primary_emotions : List String)
    (mood_score : Option ℚ) (breakthrough_moments : Option String)
    (word_count : Option Nat) (engagement_score : Option ℚ)
    (stress_indicators : List String) (now : Nat) : Session :=
  { s with
    title := some title
  , status := coerceStatus status
  , ended_at := some now
  , duration := some duration
  , summary := some summary
  , key_topics := some key_topics
  , primary_emotions := some primary_emotions
  , mood_score := mood_score
  , breakthrough_moments := breakthrough_moments
  , word_count := word_count
  , engagement_score := engagement_score
  , stress_indicators := some stress_indicators }

/-- Model of `prisma.session.update(where={'id': ...})`: rewrite the matching row. -/
def update_session_row (db : List Session) (session_id : String)
    (f : Session → Session) : List Session :=
  db.map (fun s => if s.id = session_id then f s else s)

/-- Responses of the webhook endpoint `receive_session_transcript`. -/
inductive WebhookResponse where
  /-- HTTP 404: no session row for the room name. -/
  | notFound (room_name : String)
  /-- The "Session already processed" no-op payload. -/
  | alreadyProcessed (session_id : String) (room_name : String)
  /-- The "Transcript processed successfully" payload. -/
  | processed
  /-- HTTP 500 after the best-effort ERROR mark of the except-branch. -/
  | serverError
deriving DecidableEq, Repr

/-- Model of `receive_session_transcript` (src/main.py:582): look the session up by
room name; no-op when `status != 'ACTIVE' and status != 'COMPLETED'`;
otherwise analyze and write the analysis through
`complete_session_with_analysis`.  When the analyzer raises, the except-branch
best-effort marks the row `ERROR` with `ended_at` and answers 500.  Returns
the updated table and the response. -/
def receive_session_transcript (db : List Session)
    (provider : Nat → Option LLMAnalysis) (room_name : String)
    (transcript : String) (duration_seconds : Int) (now : Nat) :
    List Session × WebhookResponse :=
  match get_session_by_room_name db room_name with
  | none => (db, .notFound room_name)
  | some session =>
      if session.status ≠ "ACTIVE" ∧ session.status ≠ "COMPLETED" then
        (db, .alreadyProcessed session.id room_name)
      else
        match analyze_session_with_llm transcript duration_seconds provider 3 with
        | .ok analysis =>
            (update_session_row db session.id (fun s =>
                complete_session_with_analysis s
                  (statusFromAnalysis analysis.status)
                  analysis.data.title
                  duration_seconds
                  analysis.data.summary
                  analysis.data.key_topics
                  analysis.data.primary_emotions
                  (some analysis.data.mood_score)
                  (some (analysis.data.breakthrough_moments.getD ""))
                  (some analysis.data.word_count)
                  (some analysis.data.engagement_score)
                  analysis.data.stress_indicators
                  now)
            , .processed)
        | .error _ =>
            (update_session_row db session.id (fun s =>
                { s with status := "ERROR", ended_at := some now })
            , .serverError)

/-- Return value of the session-creation endpoint, together with the row it
persisted and the metadata it attached to the room. -/
structure CreateSessionResult where
  session : Session
  metadata : RoomMetadata
  room_name : String
deriving DecidableEq, Repr

/-- Model of `create_therapy_session` (src/main.py:380): derive the room name from the
user id and the current timestamp, persist a row through `create_session` with
`title` set to today's date string, and attach room metadata whose three
context fields are null.  `now_ts` stands for
`int(datetime.now().timestamp())`, `date_str` for
`datetime.today().strftime('%Y-%m-%d')`, and `new_id` for the store-assigned
session id. -/
def create_therapy_session (u : User) (now_ts : Nat) (today : Date)
    (date_str : String) (new_id : String) : CreateSessionResult :=
  let room_name := "emotional_guidance_" ++ u.id ++ "_" ++ toString now_ts
  let title := date_str
  let session := create_session new_id u.id room_name title today
  { session := session
  , metadata :=
      { user_id := u.id
      , user_name := u.name
      , session_id := session.id
      , summary := none
      , key_topics := none
      , primary_emotions := none }
  , room_name := room_name }

/-- Model of `HTTPException(status_code, detail)`. -/
structure HTTPError where
  status_code : Nat
  detail : String
deriving DecidableEq, Repr

/-- Return value of the session-resumption endpoint. -/
structure ResumeSessionResult where
  room_name : String
  session_id : String
  metadata : RoomMetadata
deriving DecidableEq, Repr

/-- Model of `resume_therapy_session` (src/main.py:443): load the prior row by id, 404
when it is absent or owned by another user, otherwise rebuild room metadata
from the prior row's summary, key topics and primary emotions and re-provision
the room under the prior row's room name. -/
def resume_therapy_session (db : List Session) (u : User)
    (session_id : String) : Except HTTPError ResumeSessionResult :=
  match get_session_by_id db session_id with
  | none => .error { status_code := 404, detail := "Session not found" }
  | some previous_session =>
      if previous_session.user_id ≠ u.id then
        .error { status_code := 404, detail := "Session not found" }
      else
        .ok { room_name := previous_session.room_name
            , session_id := previous_session.id
            , metadata :=
                { user_id := u.id
                , user_name := u.name
                , session_id := session_id
                , summary := previous_session.summary
                , key_topics := previous_session.key_topics
                , primary_emotions := previous_session.primary_emotions } }

/-- View of a status-`COMPLETED` Session row as consumed by
`get_progress_insights` (src/main.py:532): the finalization write has set the
analysis lists (`complete_session_with_analysis` stores `some`), while
`mood_score` stays optional because the code guards it with `is not None`. -/
structure AnalyzedSession where
  mood_score : Option ℚ
  key_topics : List String
  primary_emotions : List String
deriving DecidableEq, Repr

/-- One step of the frequency-dict build of src/main.py:566: bump the entry of
`v` (dict keys are unique, so the first match is the entry) or append a fresh
`(v, 1)` entry at the end, as dict insertion order does. -/
def bumpFreq : List (String × Nat) → String → List (String × Nat)
  | [], v => [(v, 1)]
  | p :: ps, v =>
      if p.1 = v then (p.1, p.2 + 1) :: ps else p :: bumpFreq ps v

/-- The frequency dict (`topic_frequency` / `emotion_frequency`,
src/main.py:563) as an insertion-ordered association list. -/
def countFreq (l : List String) : List (String × Nat) := l.foldl bumpFreq []

/-- The distinct values of `l` in order of first occurrence — the key order of
an insertion-ordered Python dict built by one left-to-right pass. -/
def firstDedup : List String → List String
  | [] => []
  | x :: xs => x :: (firstDedup xs).filter (fun y => y ≠ x)

/-- Total count carried by the entries of an association list under one key;
with distinct keys this is the value of the key's single entry. -/
def keyTotal (acc : List (String × Nat)) (w : String) : Nat :=
  ((acc.filter (fun p => p.1 = w)).map Prod.snd).sum

/-- Stable insertion of `x` into a list sorted by `key` in non-increasing
order: `x` passes every element with strictly larger key and stops in front of
the first element whose key is `≤` its own, so earlier elements keep their
place among equals. -/
def insertDescBy {α : Type} (key : α → Nat) (x : α) : List α → List α
  | [] => [x]
  | y :: ys => if key y ≤ key x then x :: y :: ys else y :: insertDescBy key x ys

/-- Python's `sorted(..., key=..., reverse=True)` / `list.sort(key=...,
reverse=True)`: Timsort is stable, and any stable sort into non-increasing key
order computes the same list, so a stable insertion sort is an exact model. -/
def sortDescBy {α : Type} (key : α → Nat) (l : List α) : List α :=
  l.foldr (insertDescBy key) []

/-- Response of `get_progress_insights` (src/main.py:532). -/
structure ProgressInsights where
  total_sessions : Nat
  average_mood_score : Option ℚ
  mood_trend : Option ℚ
  most_discussed_topics : List (String × Nat)
  common_emotions : List (String × Nat)
deriving DecidableEq, Repr

/-- Model of `get_progress_insights` (src/main.py:532) over `all_sessions`, the
status-`COMPLETED` rows of the user in `started_at` ascending order as
delivered by `DatabaseManager.get_progress_insights` (src/database.py:255).
`mood_scores[-2:]` is `drop (length - 2)`; both sums are divided by the
literal 2 as in the source. -/
def get_progress_insights (all_sessions : List AnalyzedSession) : ProgressInsights :=
  let total_sessions := all_sessions.length
  let averages : Option ℚ × Option ℚ :=
    if all_sessions.isEmpty then (none, none)
    else
      let mood_scores := all_sessions.filterMap (fun s => s.mood_score)
      if mood_scores.isEmpty then (none, none)
      else
        let avg := some (mood_scores.sum / (mood_scores.length : ℚ))
        let trend :=
          if 4 ≤ mood_scores.length then
            some ((mood_scores.drop (mood_scores.length - 2)).sum / 2
                  - (mood_scores.take 2).sum / 2)
          else none
        (avg, trend)
  let all_topics := (all_sessions.map (fun s => s.key_topics)).flatten
  let all_emotions := (all_sessions.map (fun s => s.primary_emotions)).flatten
  { total_sessions := total_sessions
  , average_mood_score := averages.1
  , mood_trend := averages.2
  , most_discussed_topics := (sortDescBy (fun p => p.2) (countFreq all_topics)).take 5
  , common_emotions := (sortDescBy (fun p => p.2) (countFreq all_emotions)).take 5 }

/-- Model of `strftime("%Y-%m")` of a start date, encoded as a number whose order
coincides with the lexicographic order of the zero-padded string. -/
def monthKey (d : Date) : Nat := d.year * 100 + d.month

/-- Model of `strftime("%B %Y")`. -/
def monthName : Nat → String
  | 1 => "January" | 2 => "February" | 3 => "March" | 4 => "April"
  | 5 => "May" | 6 => "June" | 7 => "July" | 8 => "August"
  | 9 => "September" | 10 => "October" | 11 => "November" | 12 => "December"
  | _ => "Unknown"

/-- Group label, month name followed by the year. -/
def monthLabel (d : Date) : String := monthName d.month ++ " " ++ toString d.year

/-- One month bucket of `grouped_sessions` (src/database.py:305).  The source
appends a projection (id, title, started_at, status, mood_score, duration) of
each row; the whole row is kept here, which leaves the grouping and pagination
structure untouched. -/
structure MonthGroup where
  month_key : Nat
  month_name : String
  sessions : List Session
deriving DecidableEq, Repr

/-- Insert one session into the month dict (src/database.py:306): append to
the existing bucket of its month key (dict keys are unique, so the first match
is the bucket), or append a fresh bucket at the end as dict insertion order
does. -/
def addToGroups : List MonthGroup → Session → List MonthGroup
  | [], s => [{ month_key := monthKey s.started_at
              , month_name := monthLabel s.started_at
              , sessions := [s] }]
  | g :: gs, s =>
      if g.month_key = monthKey s.started_at then
        { g with sessions := g.sessions ++ [s] } :: gs
      else
        g :: addToGroups gs s

/-- Pagination metadata block (src/database.py:340). -/
structure Pagination where
  current_page : Nat
  page_size : Nat
  total_sessions : Nat
  total_pages : Nat
  has_next : Bool
  has_prev : Bool
deriving DecidableEq, Repr

/-- Response of `get_user_sessions_grouped_by_month`. -/
structure GroupedSessions where
  sessions_by_month : List MonthGroup
  pagination : Pagination
deriving DecidableEq, Repr

/-- All sessions contained in a group list, in group order. -/
def groupsFlatten (gs : List MonthGroup) : List Session :=
  (gs.map (fun g => g.sessions)).flatten

/-- Model of `DatabaseManager.get_user_sessions_grouped_by_month` (src/database.py:283)
over `user_sessions`, the user's full row list in `started_at` descending
order as the query orders it: slice the ungrouped list with
`skip = (page-1)*page_size`, `take = page_size`, group the slice by calendar
month, sort the buckets by month key newest-first, and compute
`total_pages = (total + page_size - 1) // page_size`,
`has_next = page < total_pages`, `has_prev = page > 1`. -/
def get_user_sessions_grouped_by_month (user_sessions : List Session)
    (page : Nat) (page_size : Nat) : GroupedSessions :=
  let offset := (page - 1) * page_size
  let total_sessions := user_sessions.length
  let sessions := (user_sessions.drop offset).take page_size
  let grouped_list := sortDescBy (fun g => g.month_key) (sessions.foldl addToGroups [])
  let total_pages := (total_sessions + page_size - 1) / page_size
  { sessions_by_month := grouped_list
  , pagination :=
      { current_page := page
      , page_size := page_size
      , total_sessions := total_sessions
      , total_pages := total_pages
      , has_next := decide (page < total_pages)
      , has_prev := decide (1 < page) } }

/-- A raw audio frame delivered to `Miso.stt_node`; `data` is its byte
payload (`frame.data`). -/
structure Frame where
  data : List Nat
deriving DecidableEq, Repr

/-- The Miso agent's per-utterance audio state
(src/agents/miso-agent/agent.py:56): the growing frame list and the flushed
byte buffer.  `audio_file` holds the concatenated frame bytes
(`b''.flatten(frame.data ...)`); the fixed 16 kHz mono 16-bit WAV container the
source wraps around those bytes is presentational and not modelled. -/
structure AgentState where
  audio_buffer_list : List Frame
  audio_file : Option (List Nat)
deriving DecidableEq, Repr

/-- Agent state at construction (src/agents/miso-agent/agent.py:56). -/
def agentInit : AgentState := { audio_buffer_list := [], audio_file := none }

/-- Model of `buffered_audio` inside `Miso.stt_node`
(src/agents/miso-agent/agent.py:101): every arriving frame is appended to
`audio_buffer_list`. -/
def stt_on_frame (st : AgentState) (f : Frame) : AgentState :=
  { st with audio_buffer_list := st.audio_buffer_list ++ [f] }

/-- The `FINAL_TRANSCRIPT` branch of `Miso.stt_node`
(src/agents/miso-agent/agent.py:107): when the frame list is non-empty, its
bytes are joined into `combined_data` and stored as the flushed buffer.  The
source assigns only `self.audio_file`; `self.audio_buffer_list` is not
touched here. -/
def stt_on_final_transcript (st : AgentState) : AgentState :=
  if st.audio_buffer_list.isEmpty then st
  else { st with
         audio_file := some ((st.audio_buffer_list.map (fun f => f.data)).flatten) }

/-- One extracted sentiment segment (src/agents/utils.py:42). -/
structure SentimentSegment where
  text : Option String
  sentiment : Option String
  sentiment_score : Option ℚ
deriving DecidableEq, Repr

/-- The `sentiments` block of a Deepgram response, with the keys
`extract_context` reads. -/
structure SentimentsBlock where
  average : Option String
  segments : List SentimentSegment
deriving DecidableEq, Repr

/-- One intent of one intents segment of a Deepgram response. -/
structure IntentItem where
  intent : Option String
  confidence_score : Option ℚ
deriving DecidableEq, Repr

/-- One segment of the `intents` block of a Deepgram response. -/
structure IntentsSegment where
  text : Option String
  intents : List IntentItem
deriving DecidableEq, Repr

/-- The `intents` block: a list of segments. -/
structure IntentsBlock where
  segments : List IntentsSegment
deriving DecidableEq, Repr

/-- Model of `response.to_dict()["results"]` of a successful Deepgram call, with the
two blocks `extract_context` reads; `none` models an absent or empty block. -/
structure ApiResult where
  sentiments : Option SentimentsBlock
  intents : Option IntentsBlock
deriving DecidableEq, Repr

/-- One flattened intent entry built by `extract_context`
(src/agents/utils.py:55). -/
structure ExtractedIntent where
  text : Option String
  intent : Option String
  confidence : Option ℚ
deriving DecidableEq, Repr

/-- The context dict returned by `extract_context` (src/agents/utils.py:30):
always a two-key dict, with each key `None` when its block was absent. -/
structure Context where
  sentiments : Option (Option String × List SentimentSegment)
  intents : Option (List ExtractedIntent)
deriving DecidableEq, Repr

/-- Model of `DeepgramWrapper.extract_context` (src/agents/utils.py:30). -/
def extract_context (api_result : ApiResult) : Context :=
  { sentiments :=
      match api_result.sentiments with
      | none => none
      | some b => some (b.average, b.segments)
  , intents :=
      match api_result.intents with
      | none => none
      | some b =>
          some ((b.segments.map (fun seg =>
            seg.intents.map (fun it =>
              { text := seg.text
              , intent := it.intent
              , confidence := it.confidence_score } ))).flatten) }

/-- Model of `DeepgramWrapper.get_audio_intelligence` (src/agents/utils.py:12): a plain
(non-`async`) method whose `try` block transcribes the audio and extracts
context, and whose `except` swallows any provider failure and returns `None`.
`provider_response` is `some` Deepgram result on success and `none` when the
call raises.  Being a plain function, its call result is a `SyncCall`. -/
def get_audio_intelligence (provider_response : Option ApiResult)
    (_audio_bytes : List Nat) : SyncCall (Option Context) :=
  { value :=
      match provider_response with
      | none => none
      | some r => some (extract_context r) }

/-- A chat-context message added during turn enrichment. -/
structure ChatMsg where
  role : String
  content : String
deriving DecidableEq, Repr

/-- Outcome of a completed turn: the agent state afterwards and the messages
added to the turn's chat context. -/
structure TurnOutcome where
  state : AgentState
  added_messages : List ChatMsg
deriving DecidableEq, Repr

/-- String rendering of a context dict inside the f-string
`f"Emotional Context: ..."`; the exact text is irrelevant to the claims. -/
def contextText (_c : Context) : String := "..."

/-- Model of `Miso.on_user_turn_completed` (src/agents/miso-agent/agent.py:125): when a
flushed buffer exists, the source evaluates
`await self.deepgram.get_audio_intelligence(audio_payload)` — an `await` of a
plain function call, which raises `TypeError` before the two clearing
assignments below it run.  The `.ok` continuation transcribes the source as
written after that line: clear both buffers, and add the system message when
the context value is truthy (`None` is falsy; the two-key dict is always
truthy).  Without a flushed buffer the context is `None` and no message is
added. -/
def on_user_turn_completed (st : AgentState)
    (provider_response : Option ApiResult) : Except PyErr TurnOutcome :=
  match st.audio_file with
  | some audio_payload =>
      match pyAwait (get_audio_intelligence provider_response audio_payload) with
      | .error e => .error e
      | .ok intelligent_context =>
          let st1 : AgentState := { audio_buffer_list := [], audio_file := none }
          match intelligent_context with
          | some c =>
              .ok { state := st1
                  , added_messages :=
                      [{ role := "system"
                       , content := "Emotional Context: " ++ contextText c }] }
          | none => .ok { state := st1, added_messages := [] }
  | none => .ok { state := st, added_messages := [] }

/- ======================================================================
   Concrete fixtures used by the theorems below.
   ====================================================================== -/

/-- A parsed LLM analysis object used as a successful provider response. -/
def llmSample : LLMAnalysis :=
  { title := "Deadline Stress Session"
  , summary := "a new summary"
  , key_topics := ["work"]
  , primary_emotions := ["calm"]
  , mood_score := 7
  , breakthrough_moments := none
  , word_count := 4
  , engagement_score := 6
  , stress_indicators := [] }

/-- A provider that succeeds on every attempt. -/
def providerOk : Nat → Option LLMAnalysis := fun _ => some llmSample

/-- A provider that fails on every attempt. -/
def providerFail : Nat → Option LLMAnalysis := fun _ => none

/-- A session row already finalized with status `COMPLETED`. -/
def completedRow : Session :=
  { id := "s1"
  , user_id := "u1"
  , room_name := "room1"
  , status := "COMPLETED"
  , title := some "an old title"
  , started_at := { year := 2024, month := 1, day := 15, serial := 100 }
  , ended_at := some 10
  , duration := some 10
  , summary := some "an old summary"
  , key_topics := some ["old topic"]
  , primary_emotions := some ["sad"]
  , mood_score := some 4
  , breakthrough_moments := some ""
  , word_count := some 9
  , engagement_score := some 3
  , stress_indicators := some [] }

/-- A live session row with status `ACTIVE`. -/
def activeRow : Session :=
  { id := "s2"
  , user_id := "u1"
  , room_name := "room2"
  , status := "ACTIVE"
  , title := some "2024-01-15"
  , started_at := { year := 2024, month := 1, day := 15, serial := 100 }
  , ended_at := none
  , duration := none
  , summary := none
  , key_topics := none
  , primary_emotions := none
  , mood_score := none
  , breakthrough_moments := none
  , word_count := none
  , engagement_score := none
  , stress_indicators := none }

/-- A user owning the fixture rows. -/
def ownerUser : User :=
  { id := "u1", email := "alice@example.com", name := some "Alice" }

/-- A finalized row with the prior-context values resumed in the C7 witness. -/
def priorRow : Session :=
  { completedRow with
    id := "sid1"
  , room_name := "room9"
  , summary := some "S"
  , key_topics := some ["T"]
  , primary_emotions := some ["E"] }

/-- A two-byte audio frame. -/
def frameAB : Frame := { data := [1, 2] }

/-- A second two-byte audio frame. -/
def frameCD : Frame := { data := [3, 4] }

/-- Agent state right after a flush: one buffered frame and its flushed
bytes. -/
def flushedState : AgentState :=
  { audio_buffer_list := [frameAB], audio_file := some [1, 2] }

/-- A Deepgram response with both intelligence blocks absent. -/
def apiEmpty : ApiResult := { sentiments := none, intents := none }

/-- A completed-session view carrying only a mood score. -/
def scoredSession (q : ℚ) : AnalyzedSession :=
  { mood_score := some q, key_topics := [], primary_emotions := [] }

/-- A minimal session row starting in 2024 on the given month and day. -/
def mkRow (sid : String) (mo : Nat) (d : Nat) : Session :=
  { activeRow with
    id := sid
  , started_at := { year := 2024, month := mo, day := d, serial := mo * 31 + d } }

/-- Two completed-session views with overlapping topics and emotions. -/
def topicSessions : List AnalyzedSession :=
  [ { mood_score := none, key_topics := ["a", "b"], primary_emotions := ["x"] }
  , { mood_score := none, key_topics := ["b"], primary_emotions := ["x", "y"] } ]

/-- Fifteen sessions spread over three distinct months, newest first. -/
def fifteenSessions : List Session :=
  [ mkRow "o" 3 5, mkRow "n" 3 4, mkRow "m" 3 3, mkRow "l" 3 2, mkRow "k" 3 1
  , mkRow "j" 2 5, mkRow "i" 2 4, mkRow "h" 2 3, mkRow "g" 2 2, mkRow "f" 2 1
  , mkRow "e" 1 5, mkRow "d" 1 4, mkRow "c" 1 3, mkRow "b" 1 2, mkRow "a" 1 1 ]

/- ======================================================================
   Theorems.
   ====================================================================== -/

/-- Claim C1 (code_bug evaluation): the claim says a webhook delivery for any
non-`ACTIVE` (terminal) session is an "already processed" no-op that mutates
no field.  The handler's guard (src/main.py:593) is
`status != 'ACTIVE' and status != 'COMPLETED'`, so a `COMPLETED` row passes
the guard: the transcript is re-analyzed, the row is overwritten (its summary
changes here), and the handler answers "Transcript processed successfully"
instead of the no-op — re-finalization of a non-`ACTIVE` session does occur. -/
theorem webhook_refinalizes_completed_session :
    completedRow.status = "COMPLETED"
    ∧ (receive_session_transcript [completedRow] providerOk "room1" "tr" 42 99).2
        = WebhookResponse.processed
    ∧ ((receive_session_transcript [completedRow] providerOk "room1" "tr" 42 99).1.map
        (fun s => s.summary)) = [some "a new summary"]
    ∧ completedRow.summary = some "an old summary"
    ∧ (receive_session_transcript [completedRow] providerFail "room1" "tr" 42 99).2
        ≠ WebhookResponse.alreadyProcessed "s1" "room1" := by
  refine ⟨rfl, rfl, rfl, rfl, by decide⟩

/-- Claim C2 (code_bug evaluation): the claim says that when all 3 analyzer
attempts fail, `Analyze` returns (does not raise) the default analysis
object.  The default object's `"title"` value is `int(datetime.now())`
(src/main.py:161), which raises `TypeError`, so the analyzer raises instead of
returning; the locally computed word count the default intends is the
whitespace token count. -/
theorem analyze_all_attempts_fail_raises :
    analyze_session_with_llm "hello world there" 60 providerFail 3
      = Except.error PyErr.typeError
    ∧ get_default_analysis "hello world there" = Except.error PyErr.typeError
    ∧ pyWordCount "hello world there" = 3 := by
  refine ⟨rfl, rfl, by decide⟩

/-- Claim C3 (counterexample): the claim says the created row's analysis
payload — explicitly including the title — is entirely absent.  The creation
endpoint sets `title` to today's date string (src/main.py:388), so the
created row's title is present, not absent. -/
theorem create_session_title_not_absent :
    (create_therapy_session ownerUser 1700000000
        { year := 2024, month := 1, day := 15, serial := 100 }
        "2024-01-15" "s1").session.title = some "2024-01-15"
    ∧ some "2024-01-15" ≠ (none : Option String) := by
  exact ⟨rfl, by decide⟩

/-- Claim C3 (amended): for every user, CreateSession persists a row with
status `ACTIVE` whose analysis payload is absent except for the title, which
is initialized to the creation-date string; the attached room metadata has
all three context fields null. -/
theorem create_session_active_no_analysis (u : User) (now_ts : Nat)
    (today : Date) (date_str : String) (new_id : String) :
    (create_therapy_session u now_ts today date_str new_id).session.status = "ACTIVE"
    ∧ (create_therapy_session u now_ts today date_str new_id).session.title = some date_str
    ∧ (create_therapy_session u now_ts today date_str new_id).session.summary = none
    ∧ (create_therapy_session u now_ts today date_str new_id).session.key_topics = none
    ∧ (create_therapy_session u now_ts today date_str new_id).session.primary_emotions = none
    ∧ (create_therapy_session u now_ts today date_str new_id).session.mood_score = none
    ∧ (create_therapy_session u now_ts today date_str new_id).session.engagement_score = none
    ∧ (create_therapy_session u now_ts today date_str new_id).session.stress_indicators = none
    ∧ (create_therapy_session u now_ts today date_str new_id).session.word_count = none
    ∧ (create_therapy_session u now_ts today date_str new_id).session.breakthrough_moments = none
    ∧ (create_therapy_session u now_ts today date_str new_id).session.ended_at = none
    ∧ (create_therapy_session u now_ts today date_str new_id).session.duration = none
    ∧ (create_therapy_session u now_ts today date_str new_id).metadata.summary = none
    ∧ (create_therapy_session u now_ts today date_str new_id).metadata.key_topics = none
    ∧ (create_therapy_session u now_ts today date_str new_id).metadata.primary_emotions = none := by
  exact ⟨rfl, rfl, rfl, rfl, rfl, rfl, rfl, rfl, rfl, rfl, rfl, rfl, rfl, rfl, rfl⟩

/-- Claim C4 (counterexample): the claim says that on a final-transcript
signal the frames are concatenated and the frame accumulation list is cleared
at that point.  After one buffered frame and a final-transcript signal, the
flushed buffer holds the concatenated bytes but the accumulation list still
holds the frame: `stt_node` never assigns `audio_buffer_list`
(src/agents/miso-agent/agent.py:107). -/
theorem flush_does_not_clear_buffer_list :
    (stt_on_final_transcript (stt_on_frame agentInit frameAB)).audio_file = some [1, 2]
    ∧ (stt_on_final_transcript (stt_on_frame agentInit frameAB)).audio_buffer_list = [frameAB]
    ∧ [frameAB] ≠ ([] : List Frame) := by
  exact ⟨rfl, rfl, by decide⟩

/-- Claim C4 (amended): on a final-transcript signal the accumulated frames
are concatenated into one linear byte buffer stored as the pending audio
file, while the frame accumulation list is left unchanged at that point; the
clearing of the list is attempted only later, in the turn-completion
handler, so frames arriving before that clearing append to the same list. -/
theorem flush_concatenates_buffer_list_uncleared (st : AgentState)
    (h : st.audio_buffer_list ≠ []) :
    (stt_on_final_transcript st).audio_file
        = some ((st.audio_buffer_list.map (fun f => f.data)).flatten)
    ∧ (stt_on_final_transcript st).audio_buffer_list = st.audio_buffer_list
    ∧ (∀ f, (stt_on_frame st f).audio_buffer_list = st.audio_buffer_list ++ [f]) := by
  unfold stt_on_final_transcript
  rw [if_neg (by simpa [List.isEmpty_iff] using h)]
  exact ⟨rfl, rfl, fun f => rfl⟩

/-- Witness for the amended C4 theorem at a concrete one-frame state. -/
theorem flush_concatenates_buffer_list_uncleared_witness :
    (stt_on_final_transcript (stt_on_frame agentInit frameCD)).audio_file = some [3, 4]
    ∧ (stt_on_final_transcript (stt_on_frame agentInit frameCD)).audio_buffer_list
        = (stt_on_frame agentInit frameCD).audio_buffer_list := by
  have h := flush_concatenates_buffer_list_uncleared
    (stt_on_frame agentInit frameCD) (by decide)
  exact ⟨h.1.trans rfl, h.2.1⟩

/-- Claim C5 (code_bug evaluation): the silence half of the claim holds — a
turn with no flushed buffer adds no system message and proceeds with the
state untouched — and `get_audio_intelligence` itself swallows a provider
failure into `None`; but on any turn with a flushed buffer the handler
evaluates `await self.deepgram.get_audio_intelligence(...)`
(src/agents/miso-agent/agent.py:128) on a plain (non-awaitable) call result,
which raises `TypeError`, so a provider failure on a non-silent turn is
surfaced out of the turn instead of being treated as "no signal". -/
theorem turn_enrichment_silence_ok_but_await_raises :
    on_user_turn_completed agentInit none
        = Except.ok { state := agentInit, added_messages := [] }
    ∧ on_user_turn_completed agentInit (some apiEmpty)
        = Except.ok { state := agentInit, added_messages := [] }
    ∧ (get_audio_intelligence none [1, 2]).value = none
    ∧ on_user_turn_completed flushedState none = Except.error PyErr.typeError
    ∧ on_user_turn_completed flushedState (some apiEmpty)
        = Except.error PyErr.typeError := by
  exact ⟨rfl, rfl, rfl, rfl, rfl⟩

/-- Claim C7: ResumeSession rebuilds room metadata from the prior session's
summary, key topics and primary emotions, and fails with the 404
"Session not found" error when the session id is nonexistent or the row is
owned by another user. -/
theorem resume_session_metadata_and_not_found (db : List Session) (u : User)
    (sid : String) :
    (get_session_by_id db sid = none →
        resume_therapy_session db u sid
          = Except.error { status_code := 404, detail := "Session not found" })
    ∧ (∀ s, get_session_by_id db sid = some s → s.user_id ≠ u.id →
        resume_therapy_session db u sid
          = Except.error { status_code := 404, detail := "Session not found" })
    ∧ (∀ s, get_session_by_id db sid = some s → s.user_id = u.id →
        resume_therapy_session db u sid
          = Except.ok
              { room_name := s.room_name
              , session_id := s.id
              , metadata :=
                  { user_id := u.id
                  , user_name := u.name
                  , session_id := sid
                  , summary := s.summary
                  , key_topics := s.key_topics
                  , primary_emotions := s.primary_emotions } }) := by
  unfold resume_therapy_session
  refine ⟨fun h => by rw [h], fun s h hne => ?_, fun s h he => ?_⟩
  · rw [h]; simp [hne]
  · rw [h]; simp [he]

/-- Witness for C7 at a concrete owned session with context {S, [T], [E]}. -/
theorem resume_session_metadata_witness :
    resume_therapy_session [priorRow] ownerUser "sid1"
      = Except.ok
          { room_name := "room9"
          , session_id := "sid1"
          , metadata :=
              { user_id := "u1"
              , user_name := some "Alice"
              , session_id := "sid1"
              , summary := some "S"
              , key_topics := some ["T"]
              , primary_emotions := some ["E"] } } := by
  exact (resume_session_metadata_and_not_found [priorRow] ownerUser "sid1").2.2
    priorRow rfl rfl

/-- Claim C6: mood_trend equals (mean of the last 2 mood scores) minus (mean
of the first 2) over the chronologically ordered completed sessions with
non-null scores when at least 4 such scores exist, and null otherwise; in
particular scores [3,4,8,9] yield trend 5 and exactly 3 scores yield null. -/
theorem mood_trend_formula :
    (∀ all_sessions : List AnalyzedSession,
      (get_progress_insights all_sessions).mood_trend =
        (if 4 ≤ (all_sessions.filterMap (fun s => s.mood_score)).length then
          some (((all_sessions.filterMap (fun s => s.mood_score)).drop
                    ((all_sessions.filterMap (fun s => s.mood_score)).length - 2)).sum / 2
                - ((all_sessions.filterMap (fun s => s.mood_score)).take 2).sum / 2)
         else none))
    ∧ (get_progress_insights
        [scoredSession 3, scoredSession 4, scoredSession 8, scoredSession 9]).mood_trend
        = some 5
    ∧ (get_progress_insights [scoredSession 3, scoredSession 4, scoredSession 8]).mood_trend
        = none := by
  refine ⟨?_, by simp [get_progress_insights, scoredSession]; norm_num,
    by simp [get_progress_insights, scoredSession]⟩
  intro all_sessions
  by_cases h1 : all_sessions.isEmpty
  · have h0 : all_sessions = [] := List.isEmpty_iff.mp h1
    subst h0
    rfl
  · by_cases h2 : (all_sessions.filterMap (fun s => s.mood_score)).isEmpty
    · have h0 : (all_sessions.filterMap (fun s => s.mood_score)) = [] :=
        List.isEmpty_iff.mp h2
      simp [get_progress_insights, h1, h2, h0]
    · by_cases h3 : 4 ≤ (all_sessions.filterMap (fun s => s.mood_score)).length
      · simp [get_progress_insights, h1, h2, h3]
      · simp [get_progress_insights, h1, h2, h3]

/-- In the pointwise zip of a list with itself every pair is diagonal. -/
theorem zip_self_eq {α : Type} (l : List α) : ∀ p ∈ l.zip l, p.1 = p.2 := by
  induction l with
  | nil => intro p hp; cases hp
  | cons x xs ih =>
      intro p hp
      rw [List.zip_cons_cons] at hp
      rcases List.mem_cons.mp hp with h | h
      · subst h; rfl
      · exact ih p h

/-- In the zip of a mapped list with the original, the first component of
every pair is the image of the second. -/
theorem zip_map_self {α : Type} (g : α → α) (l : List α) :
    ∀ p ∈ (l.map g).zip l, p.1 = g p.2 := by
  induction l with
  | nil => intro p hp; cases hp
  | cons x xs ih =>
      intro p hp
      rw [List.map_cons, List.zip_cons_cons] at hp
      rcases List.mem_cons.mp hp with h | h
      · subst h; rfl
      · exact ih p h

/-- Every successful return of the analyzer's retry loop carries
`status = some "COMPLETED"`: the only `.ok` exit is the success branch, since
`get_default_analysis` raises. -/
theorem analyzeFrom_ok_status (t : String) (provider : Nat → Option LLMAnalysis)
    (m : Nat) (a : AnalysisResult) :
    ∀ r, analyzeFrom t provider m r = Except.ok a → a.status = some "COMPLETED" := by
  intro r
  induction r with
  | zero =>
      intro h
      exact absurd h (by simp [analyzeFrom, get_default_analysis, pyIntOfDatetime])
  | succ n ih =>
      intro h
      simp only [analyzeFrom] at h
      cases hp : provider (m - (n + 1)) with
      | some parsed =>
          rw [hp] at h
          injection h with h1
          rw [← h1]
      | none =>
          rw [hp] at h
          by_cases hc : m - (n + 1) = m - 1
          · rw [if_pos hc] at h
            exact absurd h (by simp [get_default_analysis, pyIntOfDatetime])
          · rw [if_neg hc] at h
            exact ih h

/-- Claim C10: every finalization write through the webhook stores a terminal
status.  The handler's `.get("status", "ERROR")` substitutes `ERROR` for a
missing status field, the store's `status or "ERROR"` coerces a falsy status
to `ERROR`, and every row the webhook run changes ends with status
`COMPLETED` or `ERROR` — never `ACTIVE` or anything else. -/
theorem finalization_write_terminal_status (db : List Session)
    (provider : Nat → Option LLMAnalysis) (room_name transcript : String)
    (duration_seconds : Int) (now : Nat) :
    statusFromAnalysis none = "ERROR"
    ∧ coerceStatus "" = "ERROR"
    ∧ ∀ p ∈ ((receive_session_transcript db provider room_name transcript
          duration_seconds now).1.zip db),
        p.1 ≠ p.2 → p.1.status = "COMPLETED" ∨ p.1.status = "ERROR" := by
  refine ⟨rfl, rfl, ?_⟩
  intro p hp hne
  unfold receive_session_transcript at hp
  cases hfind : get_session_by_room_name db room_name with
  | none =>
      rw [hfind] at hp
      exact absurd (zip_self_eq db p hp) hne
  | some session =>
      rw [hfind] at hp
      dsimp only at hp
      by_cases hst : session.status ≠ "ACTIVE" ∧ session.status ≠ "COMPLETED"
      · rw [if_pos hst] at hp
        exact absurd (zip_self_eq db p hp) hne
      · rw [if_neg hst] at hp
        cases han : analyze_session_with_llm transcript duration_seconds provider 3 with
        | ok analysis =>
            rw [han] at hp
            dsimp only at hp
            unfold update_session_row at hp
            have h1 := zip_map_self _ db p hp
            by_cases hid : p.2.id = session.id
            · left
              rw [h1, if_pos hid]
              have hs : analysis.status = some "COMPLETED" :=
                analyzeFrom_ok_status transcript provider 3 analysis 3 han
              show coerceStatus (statusFromAnalysis analysis.status) = "COMPLETED"
              rw [hs]
              rfl
            · rw [h1, if_neg hid] at hne
              exact absurd rfl hne
        | error e =>
            rw [han] at hp
            dsimp only at hp
            unfold update_session_row at hp
            have h1 := zip_map_self _ db p hp
            by_cases hid : p.2.id = session.id
            · right
              rw [h1, if_pos hid]
            · rw [h1, if_neg hid] at hne
              exact absurd rfl hne

/-- Witness for C10: a delivery for an `ACTIVE` session whose analyzer raises
changes exactly that row, and the changed row's status is terminal. -/
theorem finalization_write_terminal_status_witness :
    ({ activeRow with status := "ERROR", ended_at := some 99 } : Session).status
        = "COMPLETED"
    ∨ ({ activeRow with status := "ERROR", ended_at := some 99 } : Session).status
        = "ERROR" := by
  have h := finalization_write_terminal_status [activeRow] providerFail "room2"
    "tr" 42 99
  exact h.2.2
    ({ activeRow with status := "ERROR", ended_at := some 99 }, activeRow)
    (by decide) (by decide)

/-- Stable descending insertion permutes: inserting is adding one element. -/
theorem insertDescBy_perm {α : Type} (key : α → Nat) (x : α) (l : List α) :
    List.Perm (insertDescBy key x l) (x :: l) := by
  induction l with
  | nil => exact List.Perm.refl _
  | cons y ys ih =>
      unfold insertDescBy
      by_cases h : key y ≤ key x
      · rw [if_pos h]
      · rw [if_neg h]
        exact (ih.cons y).trans (List.Perm.swap x y ys)

/-- The stable descending sort is a permutation of its input. -/
theorem sortDescBy_perm {α : Type} (key : α → Nat) (l : List α) :
    List.Perm (sortDescBy key l) l := by
  induction l with
  | nil => exact List.Perm.refl _
  | cons x xs ih =>
      exact (insertDescBy_perm key x (sortDescBy key xs)).trans (ih.cons x)

/-- A permutation of an outer list of lists permutes the flattening. -/
theorem perm_flatten_of_perm {α : Type} {l1 l2 : List (List α)}
    (h : List.Perm l1 l2) : List.Perm l1.flatten l2.flatten := by
  induction h with
  | nil => exact List.Perm.refl _
  | cons x _ ih => exact ih.append_left x
  | swap x y l =>
      show List.Perm (y ++ (x ++ l.flatten)) (x ++ (y ++ l.flatten))
      rw [← List.append_assoc, ← List.append_assoc]
      exact List.perm_append_comm.append_right l.flatten
  | trans _ _ ih1 ih2 => exact ih1.trans ih2

/-- Adding one session to the month dict adds exactly that session to the
grouped contents. -/
theorem groupsFlatten_addToGroups (gs : List MonthGroup) (s : Session) :
    List.Perm (groupsFlatten (addToGroups gs s)) (groupsFlatten gs ++ [s]) := by
  induction gs with
  | nil => exact List.Perm.refl _
  | cons g gs ih =>
      unfold addToGroups
      by_cases h : g.month_key = monthKey s.started_at
      · rw [if_pos h]
        show List.Perm ((g.sessions ++ [s]) ++ groupsFlatten gs)
              ((g.sessions ++ groupsFlatten gs) ++ [s])
        rw [List.append_assoc, List.append_assoc]
        exact List.Perm.append_left _ List.perm_append_comm
      · rw [if_neg h]
        show List.Perm (g.sessions ++ groupsFlatten (addToGroups gs s))
              ((g.sessions ++ groupsFlatten gs) ++ [s])
        rw [List.append_assoc]
        exact List.Perm.append_left _ ih

/-- Folding a session list into the month dict appends exactly those sessions
to the grouped contents. -/
theorem groupsFlatten_foldl (l : List Session) :
    ∀ gs : List MonthGroup,
      List.Perm (groupsFlatten (l.foldl addToGroups gs)) (groupsFlatten gs ++ l) := by
  induction l with
  | nil => intro gs; simp [groupsFlatten]
  | cons s l ih =>
      intro gs
      have h1 := ih (addToGroups gs s)
      have h2 := (groupsFlatten_addToGroups gs s).append_right l
      have h3 : (groupsFlatten gs ++ [s]) ++ l = groupsFlatten gs ++ (s :: l) := by
        rw [List.append_assoc]; rfl
      rw [← h3]
      exact h1.trans h2

/-- Claim C8: ListSessionsByMonth paginates the ungrouped newest-first
session list before grouping it by month — the grouped page contents are
exactly the `drop ((page-1)*page_size) |> take page_size` slice of the
ungrouped list — and the metadata satisfies
`total_pages = ceiling(total/page_size)` (characterized as the least `n` with
`total ≤ n * page_size`), `has_next = (page < total_pages)`,
`has_prev = (page > 1)`; for 15 sessions across 3 months with page_size 10,
page 1 carries exactly 10 sessions (spanning 2 months of 5 each),
`has_next = true` and `total_pages = 2`. -/
theorem sessions_grouped_pagination_before_grouping
    (user_sessions : List Session) (page page_size : Nat) :
    List.Perm
      (groupsFlatten
        (get_user_sessions_grouped_by_month user_sessions page page_size).sessions_by_month)
      ((user_sessions.drop ((page - 1) * page_size)).take page_size)
    ∧ (get_user_sessions_grouped_by_month user_sessions page
        page_size).pagination.total_sessions = user_sessions.length
    ∧ (0 < page_size → ∀ n : Nat,
        ((get_user_sessions_grouped_by_month user_sessions page
            page_size).pagination.total_pages ≤ n
          ↔ user_sessions.length ≤ n * page_size))
    ∧ (get_user_sessions_grouped_by_month user_sessions page
        page_size).pagination.has_next
        = decide (page < (get_user_sessions_grouped_by_month user_sessions page
            page_size).pagination.total_pages)
    ∧ (get_user_sessions_grouped_by_month user_sessions page
        page_size).pagination.has_prev = decide (1 < page)
    ∧ (groupsFlatten
        (get_user_sessions_grouped_by_month fifteenSessions 1 10).sessions_by_month).length
        = 10
    ∧ (get_user_sessions_grouped_by_month fifteenSessions 1
        10).sessions_by_month.map (fun g => (g.month_key, g.sessions.length))
        = [(202403, 5), (202402, 5)]
    ∧ (get_user_sessions_grouped_by_month fifteenSessions 1 10).pagination.has_next = true
    ∧ (get_user_sessions_grouped_by_month fifteenSessions 1 10).pagination.total_pages = 2 := by
  refine ⟨?_, rfl, ?_, rfl, rfl, by decide, by decide, by decide, by decide⟩
  · have hsort := sortDescBy_perm (fun g : MonthGroup => g.month_key)
      (((user_sessions.drop ((page - 1) * page_size)).take page_size).foldl
        addToGroups [])
    have h1 := perm_flatten_of_perm (hsort.map (fun g : MonthGroup => g.sessions))
    have h2 := groupsFlatten_foldl
      ((user_sessions.drop ((page - 1) * page_size)).take page_size) []
    exact h1.trans h2
  · intro hps n
    show (user_sessions.length + page_size - 1) / page_size ≤ n
        ↔ user_sessions.length ≤ n * page_size
    rw [Nat.div_le_iff_le_mul_add_pred hps, Nat.mul_comm page_size n]
    generalize n * page_size = q
    omega

/-- Witness for C8's ceiling characterization at 15 sessions, page size 10,
bound 2. -/
theorem sessions_grouped_pagination_witness :
    (get_user_sessions_grouped_by_month fifteenSessions 1
        10).pagination.total_pages ≤ 2
      ↔ fifteenSessions.length ≤ 2 * 10 := by
  exact ((sessions_grouped_pagination_before_grouping fifteenSessions 1
    10).2.2.1 (by decide)) 2

/-- Stable descending insertion preserves non-increasing key order. -/
theorem insertDescBy_pairwise {α : Type} (key : α → Nat) (x : α) :
    ∀ l : List α, l.Pairwise (fun a b => key b ≤ key a) →
      (insertDescBy key x l).Pairwise (fun a b => key b ≤ key a) := by
  intro l
  induction l with
  | nil => intro _; simp [insertDescBy]
  | cons y ys ih =>
      intro h
      rcases List.pairwise_cons.mp h with ⟨hy, hys⟩
      unfold insertDescBy
      by_cases hk : key y ≤ key x
      · rw [if_pos hk]
        refine List.pairwise_cons.mpr ⟨?_, h⟩
        intro z hz
        rcases List.mem_cons.mp hz with rfl | hz2
        · exact hk
        · exact le_trans (hy z hz2) hk
      · rw [if_neg hk]
        refine List.pairwise_cons.mpr ⟨?_, ih hys⟩
        intro z hz
        have hz2 := (insertDescBy_perm key x ys).mem_iff.mp hz
        rcases List.mem_cons.mp hz2 with rfl | hz3
        · exact Nat.le_of_lt (Nat.lt_of_not_le hk)
        · exact hy z hz3

/-- The stable descending sort is sorted: keys are non-increasing. -/
theorem sortDescBy_pairwise {α : Type} (key : α → Nat) (l : List α) :
    (sortDescBy key l).Pairwise (fun a b => key b ≤ key a) := by
  induction l with
  | nil => exact List.Pairwise.nil
  | cons x xs ih => exact insertDescBy_pairwise key x (sortDescBy key xs) ih

/-- Inserting an element of key class `c` puts it in front of that class:
the walk only passes elements with strictly larger keys. -/
theorem insertDescBy_filter_pos {α : Type} (key : α → Nat) (x : α) (c : Nat)
    (hx : key x = c) :
    ∀ l : List α, (insertDescBy key x l).filter (fun a => key a = c)
      = x :: l.filter (fun a => key a = c) := by
  intro l
  induction l with
  | nil => simp [insertDescBy, hx]
  | cons y ys ih =>
      unfold insertDescBy
      by_cases hk : key y ≤ key x
      · rw [if_pos hk]
        simp [List.filter_cons, hx]
      · rw [if_neg hk]
        have hyc : ¬ (key y = c) := by omega
        simp [List.filter_cons, hyc, ih]

/-- Inserting an element outside key class `c` leaves the class untouched. -/
theorem insertDescBy_filter_neg {α : Type} (key : α → Nat) (x : α) (c : Nat)
    (hx : ¬ key x = c) :
    ∀ l : List α, (insertDescBy key x l).filter (fun a => key a = c)
      = l.filter (fun a => key a = c) := by
  intro l
  induction l with
  | nil => simp [insertDescBy, hx]
  | cons y ys ih =>
      unfold insertDescBy
      by_cases hk : key y ≤ key x
      · rw [if_pos hk]
        simp [List.filter_cons, hx]
      · rw [if_neg hk]
        simp [List.filter_cons, ih]

/-- Stability of the descending sort: each key class comes out in exactly its
input order. -/
theorem sortDescBy_filter {α : Type} (key : α → Nat) (c : Nat) (l : List α) :
    (sortDescBy key l).filter (fun a => key a = c)
      = l.filter (fun a => key a = c) := by
  induction l with
  | nil => rfl
  | cons x xs ih =>
      by_cases hx : key x = c
      · rw [show sortDescBy key (x :: xs)
              = insertDescBy key x (sortDescBy key xs) from rfl,
            insertDescBy_filter_pos key x c hx, ih]
        simp [List.filter_cons, hx]
      · rw [show sortDescBy key (x :: xs)
              = insertDescBy key x (sortDescBy key xs) from rfl,
            insertDescBy_filter_neg key x c hx, ih]
        simp [List.filter_cons, hx]

/-- The list `firstDedup l` keeps exactly the values of the input. -/
theorem mem_firstDedup (a : String) :
    ∀ l : List String, a ∈ firstDedup l ↔ a ∈ l := by
  intro l
  induction l with
  | nil => simp [firstDedup]
  | cons x xs ih =>
      by_cases hax : a = x
      · subst hax; simp [firstDedup]
      · simp [firstDedup, List.mem_filter, hax, ih]

/-- The list `firstDedup l` has no duplicates. -/
theorem firstDedup_nodup : ∀ l : List String, (firstDedup l).Nodup := by
  intro l
  induction l with
  | nil => exact List.Pairwise.nil
  | cons x xs ih =>
      refine List.pairwise_cons.mpr ⟨?_, ih.filter _⟩
      intro y hy
      have hyx := (List.mem_filter.mp hy).2
      simp only [ne_eq, decide_not, Bool.not_eq_eq_eq_not, Bool.not_true,
        decide_eq_false_iff_not] at hyx
      exact fun h => hyx h.symm

/-- Appending one value extends `firstDedup` exactly when the value is new. -/
theorem firstDedup_append_singleton (v : String) :
    ∀ l : List String, firstDedup (l ++ [v])
      = if v ∈ l then firstDedup l else firstDedup l ++ [v] := by
  intro l
  induction l with
  | nil => simp [firstDedup]
  | cons x xs ih =>
      show x :: (firstDedup (xs ++ [v])).filter (fun y => y ≠ x) = _
      rw [ih]
      by_cases hv : v ∈ xs
      · rw [if_pos hv, if_pos (List.mem_cons.mpr (Or.inr hv))]
        rfl
      · rw [if_neg hv]
        by_cases hvx : v = x
        · subst hvx
          rw [if_pos (List.mem_cons.mpr (Or.inl rfl))]
          rw [List.filter_append]
          simp [firstDedup]
        · rw [if_neg (by simp [hvx, hv])]
          rw [List.filter_append]
          simp [firstDedup, hvx]

/-- The values of `firstDedup l` appear in strictly increasing first-occurrence
position in `l`. -/
theorem firstDedup_pairwise_indexOf : ∀ l : List String,
    (firstDedup l).Pairwise (fun a b => l.indexOf a < l.indexOf b) := by
  intro l
  induction l with
  | nil => exact List.Pairwise.nil
  | cons x xs ih =>
      refine List.pairwise_cons.mpr ⟨?_, ?_⟩
      · intro b hb
        have hbx : b ≠ x := by
          have h2 := (List.mem_filter.mp hb).2
          simp only [ne_eq, decide_not, Bool.not_eq_eq_eq_not, Bool.not_true,
            decide_eq_false_iff_not] at h2
          exact h2
        rw [List.indexOf_cons_self, List.indexOf_cons_ne xs hbx.symm]
        exact Nat.succ_pos _
      · have hsub : List.Sublist ((firstDedup xs).filter (fun y => y ≠ x))
            (firstDedup xs) :=
          List.filter_sublist _
        have hp := List.Pairwise.sublist hsub ih
        refine List.Pairwise.imp_of_mem ?_ hp
        intro a b ha hb hab
        have hax : a ≠ x := by
          have h2 := (List.mem_filter.mp ha).2
          simp only [ne_eq, decide_not, Bool.not_eq_eq_eq_not, Bool.not_true,
            decide_eq_false_iff_not] at h2
          exact h2
        have hbx : b ≠ x := by
          have h2 := (List.mem_filter.mp hb).2
          simp only [ne_eq, decide_not, Bool.not_eq_eq_eq_not, Bool.not_true,
            decide_eq_false_iff_not] at h2
          exact h2
        rw [List.indexOf_cons_ne xs hax.symm, List.indexOf_cons_ne xs hbx.symm]
        exact Nat.succ_lt_succ hab

/-- Splitting `keyTotal` at a cons cell. -/
theorem keyTotal_cons (p : String × Nat) (acc : List (String × Nat)) (w : String) :
    keyTotal (p :: acc) w = (if p.1 = w then p.2 else 0) + keyTotal acc w := by
  by_cases h : p.1 = w
  · simp [keyTotal, List.filter_cons, h]
  · simp [keyTotal, List.filter_cons, h]

/-- A bump adds one to the bumped key's total and nothing to the others. -/
theorem bumpFreq_keyTotal (v w : String) :
    ∀ acc, keyTotal (bumpFreq acc v) w
      = keyTotal acc w + (if v = w then 1 else 0) := by
  intro acc
  induction acc with
  | nil =>
      show keyTotal [(v, 1)] w = keyTotal [] w + (if v = w then 1 else 0)
      rw [keyTotal_cons]
      by_cases hw : v = w
      · simp [hw, keyTotal]
      · simp [hw, keyTotal]
  | cons p ps ih =>
      unfold bumpFreq
      by_cases hp : p.1 = v
      · rw [if_pos hp, keyTotal_cons, keyTotal_cons, hp]
        by_cases hw : v = w
        · simp [hw]; omega
        · simp [hw]
      · rw [if_neg hp, keyTotal_cons, ih, keyTotal_cons]
        exact (Nat.add_assoc _ _ _).symm

/-- Folding values into the frequency dict adds exactly their occurrence
counts to each key total. -/
theorem foldl_bumpFreq_keyTotal (w : String) :
    ∀ (l : List String) (acc : List (String × Nat)),
      keyTotal (l.foldl bumpFreq acc) w = keyTotal acc w + l.count w := by
  intro l
  induction l with
  | nil => intro acc; simp
  | cons v vs ih =>
      intro acc
      show keyTotal (vs.foldl bumpFreq (bumpFreq acc v)) w = _
      rw [ih, bumpFreq_keyTotal]
      by_cases hvw : v = w
      · simp [hvw, List.count_cons]; omega
      · simp [hvw, List.count_cons, Ne.symm hvw]

/-- A bump leaves the key sequence unchanged, or appends the new key. -/
theorem bumpFreq_map_fst (v : String) :
    ∀ acc : List (String × Nat), (bumpFreq acc v).map Prod.fst
      = if v ∈ acc.map Prod.fst then acc.map Prod.fst
        else acc.map Prod.fst ++ [v] := by
  intro acc
  induction acc with
  | nil => simp [bumpFreq]
  | cons p ps ih =>
      unfold bumpFreq
      by_cases hp : p.1 = v
      · rw [if_pos hp]
        rw [if_pos (by simp [List.mem_cons, hp.symm])]
        simp
      · rw [if_neg hp]
        simp only [List.map_cons]
        rw [ih]
        by_cases hv : v ∈ ps.map Prod.fst
        · rw [if_pos hv, if_pos (List.mem_cons.mpr (Or.inr hv))]
        · have hnm : v ∉ p.1 :: ps.map Prod.fst := by
            intro hc
            rcases List.mem_cons.mp hc with he | hc2
            · exact hp he.symm
            · exact hv hc2
          rw [if_neg hv, if_neg hnm]
          simp

/-- The key sequence of the frequency dict built over a prefix is the
first-occurrence dedup of that prefix. -/
theorem foldl_bumpFreq_map_fst :
    ∀ (l processed : List String) (acc : List (String × Nat)),
      acc.map Prod.fst = firstDedup processed →
      (l.foldl bumpFreq acc).map Prod.fst = firstDedup (processed ++ l) := by
  intro l
  induction l with
  | nil => intro processed acc h; simpa using h
  | cons v vs ih =>
      intro processed acc h
      show (vs.foldl bumpFreq (bumpFreq acc v)).map Prod.fst = _
      have hstep : (bumpFreq acc v).map Prod.fst = firstDedup (processed ++ [v]) := by
        rw [bumpFreq_map_fst, h, firstDedup_append_singleton]
        by_cases hv : v ∈ processed
        · rw [if_pos hv, if_pos ((mem_firstDedup v processed).mpr hv)]
        · rw [if_neg hv,
            if_neg (fun hc => hv ((mem_firstDedup v processed).mp hc))]
      have hres := ih (processed ++ [v]) (bumpFreq acc v) hstep
      rw [List.append_assoc] at hres
      exact hres

/-- The frequency dict's keys are the values in first-occurrence order. -/
theorem countFreq_map_fst (l : List String) :
    (countFreq l).map Prod.fst = firstDedup l := by
  have h := foldl_bumpFreq_map_fst l [] [] rfl
  simpa using h

/-- Each key total of the frequency dict is the value's occurrence count. -/
theorem countFreq_keyTotal (l : List String) (w : String) :
    keyTotal (countFreq l) w = l.count w := by
  have h := foldl_bumpFreq_keyTotal w l []
  have h0 : keyTotal [] w = 0 := rfl
  rw [countFreq, h, h0, Nat.zero_add]

/-- A key absent from an association list has total zero. -/
theorem keyTotal_eq_zero : ∀ (acc : List (String × Nat)) (w : String),
    w ∉ acc.map Prod.fst → keyTotal acc w = 0 := by
  intro acc
  induction acc with
  | nil => intro w _; rfl
  | cons p ps ih =>
      intro w h
      rw [keyTotal_cons]
      have hp : ¬ (p.1 = w) := fun he => h (by simp [he])
      rw [if_neg hp, ih w (fun hc => h (by simp [hc]))]

/-- With distinct keys, each entry's value is its key's total. -/
theorem mem_keyTotal : ∀ acc : List (String × Nat),
    (acc.map Prod.fst).Nodup → ∀ p ∈ acc, p.2 = keyTotal acc p.1 := by
  intro acc
  induction acc with
  | nil => intro _ p hp; cases hp
  | cons q qs ih =>
      intro hnd p hp
      rw [List.map_cons] at hnd
      rcases List.pairwise_cons.mp hnd with ⟨hq, hqs⟩
      rcases List.mem_cons.mp hp with rfl | hp2
      · rw [keyTotal_cons, if_pos rfl]
        have habs : p.1 ∉ qs.map Prod.fst := by
          intro hc
          exact (hq p.1 hc) rfl
        rw [keyTotal_eq_zero qs p.1 habs]
        rfl
      · have hmem : p.1 ∈ qs.map Prod.fst :=
          List.mem_map_of_mem Prod.fst hp2
        have hne : ¬ (q.1 = p.1) := hq p.1 hmem
        rw [keyTotal_cons, if_neg hne, Nat.zero_add]
        exact ih hqs p hp2

/-- Each entry of the frequency dict carries its value's occurrence count. -/
theorem countFreq_counts (l : List String) :
    ∀ p ∈ countFreq l, p.2 = l.count p.1 := by
  intro p hp
  have hnd : ((countFreq l).map Prod.fst).Nodup := by
    rw [countFreq_map_fst]; exact firstDedup_nodup l
  rw [mem_keyTotal (countFreq l) hnd p hp, countFreq_keyTotal]

/-- If every key class of a list is pairwise `S`-ordered, the whole list is
pairwise `S`-ordered among equal keys. -/
theorem pairwise_of_filter_classes {α : Type} (key : α → Nat)
    (S : α → α → Prop) :
    ∀ l : List α, (∀ c, (l.filter (fun a => key a = c)).Pairwise S) →
      l.Pairwise (fun a b => key a = key b → S a b) := by
  intro l
  induction l with
  | nil => intro _; exact List.Pairwise.nil
  | cons x xs ih =>
      intro h
      refine List.pairwise_cons.mpr ⟨?_, ih (fun c => ?_)⟩
      · intro y hy hxy
        have hx := h (key x)
        rw [List.filter_cons_of_pos (by simp)] at hx
        exact (List.pairwise_cons.mp hx).1 y
          (List.mem_filter.mpr ⟨hy, by simp [hxy.symm]⟩)
      · have hc := h c
        by_cases hkc : key x = c
        · rw [List.filter_cons_of_pos (by simp [hkc])] at hc
          exact (List.pairwise_cons.mp hc).2
        · rwa [List.filter_cons_of_neg (by simp [hkc])] at hc

/-- In a pairwise-ordered list, everything kept by `take` relates to
everything discarded into `drop`. -/
theorem pairwise_take_drop {α : Type} {R : α → α → Prop} {l : List α}
    (h : l.Pairwise R) (n : Nat) :
    ∀ p ∈ l.take n, ∀ q ∈ l.drop n, R p q := by
  have hsplit : l.take n ++ l.drop n = l := List.take_append_drop n l
  rw [← hsplit] at h
  exact (List.pairwise_append.mp h).2.2

/-- Full characterization of the top-5 slice of the stable descending sort of
the frequency dict of a value list: true counts, descending counts,
first-occurrence tie order, distinct values, top-5 length, and dominance of
every kept entry over every omitted value. -/
theorem top5_characterization (l : List String) :
    (∀ p ∈ (sortDescBy (fun p => p.2) (countFreq l)).take 5, p.2 = l.count p.1)
    ∧ ((sortDescBy (fun p => p.2) (countFreq l)).take 5).Pairwise
        (fun p q => q.2 ≤ p.2)
    ∧ ((sortDescBy (fun p => p.2) (countFreq l)).take 5).Pairwise
        (fun p q => p.2 = q.2 → l.indexOf p.1 < l.indexOf q.1)
    ∧ (((sortDescBy (fun p => p.2) (countFreq l)).take 5).map Prod.fst).Nodup
    ∧ ((sortDescBy (fun p => p.2) (countFreq l)).take 5).length
        = min 5 (firstDedup l).length
    ∧ (∀ v ∈ l,
        v ∉ ((sortDescBy (fun p => p.2) (countFreq l)).take 5).map Prod.fst →
        ∀ p ∈ (sortDescBy (fun p => p.2) (countFreq l)).take 5,
          l.count v < p.2 ∨ (l.count v = p.2 ∧ l.indexOf p.1 < l.indexOf v)) := by
  have hperm : List.Perm (sortDescBy (fun p => p.2) (countFreq l)) (countFreq l) :=
    sortDescBy_perm _ _
  have hcounts : ∀ p ∈ sortDescBy (fun p => p.2) (countFreq l),
      p.2 = l.count p.1 := by
    intro p hp
    exact countFreq_counts l p (hperm.mem_iff.mp hp)
  have hdesc := sortDescBy_pairwise (fun p => p.2) (countFreq l)
  have hfreqidx : (countFreq l).Pairwise
      (fun p q => l.indexOf p.1 < l.indexOf q.1) := by
    have h := firstDedup_pairwise_indexOf l
    rw [← countFreq_map_fst l] at h
    exact List.Pairwise.of_map Prod.fst (fun a b hab => hab) h
  have htie : (sortDescBy (fun p => p.2) (countFreq l)).Pairwise
      (fun p q => p.2 = q.2 → l.indexOf p.1 < l.indexOf q.1) := by
    refine pairwise_of_filter_classes (fun p : String × Nat => p.2)
      (fun p q => l.indexOf p.1 < l.indexOf q.1) _ (fun c => ?_)
    rw [sortDescBy_filter]
    have hsub : List.Sublist
        ((countFreq l).filter (fun p => p.2 = c)) (countFreq l) :=
      List.filter_sublist _
    exact List.Pairwise.sublist hsub hfreqidx
  have hcomb := hdesc.and htie
  have hnodup_sorted :
      ((sortDescBy (fun p => p.2) (countFreq l)).map Prod.fst).Nodup := by
    have hnd : ((countFreq l).map Prod.fst).Nodup := by
      rw [countFreq_map_fst]; exact firstDedup_nodup l
    exact ((hperm.map Prod.fst).nodup_iff).mpr hnd
  refine ⟨?_, ?_, ?_, ?_, ?_, ?_⟩
  · intro p hp
    exact hcounts p (List.mem_of_mem_take hp)
  · exact List.Pairwise.sublist (List.take_sublist 5 _) hdesc
  · exact List.Pairwise.sublist (List.take_sublist 5 _) htie
  · have hsub := (List.take_sublist 5
      (sortDescBy (fun p => p.2) (countFreq l))).map Prod.fst
    exact List.Nodup.sublist hsub hnodup_sorted
  · rw [List.length_take, hperm.length_eq, ← countFreq_map_fst l,
      List.length_map]
  · intro v hv hvout p hp
    have hvfd : v ∈ (countFreq l).map Prod.fst := by
      rw [countFreq_map_fst]; exact (mem_firstDedup v l).mpr hv
    rcases List.mem_map.mp hvfd with ⟨q, hqfreq, hq1⟩
    have hqsorted : q ∈ sortDescBy (fun p => p.2) (countFreq l) :=
      hperm.mem_iff.mpr hqfreq
    have hsplit : q ∈ (sortDescBy (fun p => p.2) (countFreq l)).take 5
        ++ (sortDescBy (fun p => p.2) (countFreq l)).drop 5 := by
      rw [List.take_append_drop]; exact hqsorted
    rcases List.mem_append.mp hsplit with hqt | hqd
    · exact absurd (hq1 ▸ List.mem_map_of_mem Prod.fst hqt) hvout
    · have hrel := pairwise_take_drop hcomb 5 p hp q hqd
      have hqcount : q.2 = l.count v := by
        rw [← hq1]; exact hcounts q hqsorted
      rcases Nat.lt_or_ge q.2 p.2 with hlt | hge
      · left
        rw [← hqcount]
        exact hlt
      · have heq : p.2 = q.2 := Nat.le_antisymm hge hrel.1
        right
        constructor
        · rw [← hqcount]
          exact heq.symm
        · rw [← hq1]
          exact hrel.2 heq

/-- Claim C9: ProgressInsights returns the top-5 most frequent key topics and
primary emotions across all completed sessions as (value, count) pairs — the
counts are the true occurrence frequencies, pairs are sorted by count
descending with ties broken by first-encountered order over the chronological
session sequence, values are distinct, at most 5 (fewer only when fewer
distinct values exist), and every omitted value ranks at or below every kept
pair (strictly fewer occurrences, or equally many but encountered later). -/
theorem progress_insights_top5_frequencies (all_sessions : List AnalyzedSession) :
    (∀ p ∈ (get_progress_insights all_sessions).most_discussed_topics,
        p.2 = ((all_sessions.map (fun s => s.key_topics)).flatten).count p.1)
    ∧ (get_progress_insights all_sessions).most_discussed_topics.Pairwise
        (fun p q => q.2 ≤ p.2)
    ∧ (get_progress_insights all_sessions).most_discussed_topics.Pairwise
        (fun p q => p.2 = q.2 →
          ((all_sessions.map (fun s => s.key_topics)).flatten).indexOf p.1
            < ((all_sessions.map (fun s => s.key_topics)).flatten).indexOf q.1)
    ∧ ((get_progress_insights all_sessions).most_discussed_topics.map
        Prod.fst).Nodup
    ∧ (get_progress_insights all_sessions).most_discussed_topics.length
        = min 5 (firstDedup
            ((all_sessions.map (fun s => s.key_topics)).flatten)).length
    ∧ (∀ v ∈ (all_sessions.map (fun s => s.key_topics)).flatten,
        v ∉ (get_progress_insights all_sessions).most_discussed_topics.map
          Prod.fst →
        ∀ p ∈ (get_progress_insights all_sessions).most_discussed_topics,
          ((all_sessions.map (fun s => s.key_topics)).flatten).count v < p.2
          ∨ (((all_sessions.map (fun s => s.key_topics)).flatten).count v = p.2
             ∧ ((all_sessions.map (fun s => s.key_topics)).flatten).indexOf p.1
                < ((all_sessions.map (fun s => s.key_topics)).flatten).indexOf v))
    ∧ (∀ p ∈ (get_progress_insights all_sessions).common_emotions,
        p.2 = ((all_sessions.map (fun s => s.primary_emotions)).flatten).count p.1)
    ∧ (get_progress_insights all_sessions).common_emotions.Pairwise
        (fun p q => q.2 ≤ p.2)
    ∧ (get_progress_insights all_sessions).common_emotions.Pairwise
        (fun p q => p.2 = q.2 →
          ((all_sessions.map (fun s => s.primary_emotions)).flatten).indexOf p.1
            < ((all_sessions.map (fun s => s.primary_emotions)).flatten).indexOf q.1)
    ∧ ((get_progress_insights all_sessions).common_emotions.map Prod.fst).Nodup
    ∧ (get_progress_insights all_sessions).common_emotions.length
        = min 5 (firstDedup
            ((all_sessions.map (fun s => s.primary_emotions)).flatten)).length
    ∧ (∀ v ∈ (all_sessions.map (fun s => s.primary_emotions)).flatten,
        v ∉ (get_progress_insights all_sessions).common_emotions.map Prod.fst →
        ∀ p ∈ (get_progress_insights all_sessions).common_emotions,
          ((all_sessions.map (fun s => s.primary_emotions)).flatten).count v < p.2
          ∨ (((all_sessions.map (fun s => s.primary_emotions)).flatten).count v
                = p.2
             ∧ ((all_sessions.map
                  (fun s => s.primary_emotions)).flatten).indexOf p.1
                < ((all_sessions.map
                    (fun s => s.primary_emotions)).flatten).indexOf v)) := by
  have ht := top5_characterization ((all_sessions.map (fun s => s.key_topics)).flatten)
  have he := top5_characterization
    ((all_sessions.map (fun s => s.primary_emotions)).flatten)
  exact ⟨ht.1, ht.2.1, ht.2.2.1, ht.2.2.2.1, ht.2.2.2.2.1, ht.2.2.2.2.2,
    he.1, he.2.1, he.2.2.1, he.2.2.2.1, he.2.2.2.2.1, he.2.2.2.2.2⟩

/-- Witness for C9 at two concrete sessions: the entry ("b", 2) of the
returned top topics carries the true occurrence count of "b". -/
theorem progress_insights_top5_witness :
    (("b", 2) : String × Nat).2
      = ((topicSessions.map (fun s => s.key_topics)).flatten).count "b" := by
  exact (progress_insights_top5_frequencies topicSessions).1 ("b", 2) (by decide)

end Ahack
